import Mathlib

/-!
Verification of the ONDC deeplink consumer library: a shallow embedding of
`BecknProcessor` (schema-to-template compilation, dot-path mutation, static
overlay, dynamic resolver pipeline, validation wrapper), `HostMappingCache`
and `DeeplinkResolver.fetch_usecase`, with theorems about the embedded code.
-/

namespace Ondc

/-- JSON-compatible values: the data manipulated by the processor.  Objects are
association lists, preserving insertion order like Python dicts. -/
inductive Json where
  | null : Json
  | bool (b : Bool) : Json
  | num (n : Int) : Json
  | str (s : String) : Json
  | arr (elems : List Json) : Json
  | obj (fields : List (String × Json)) : Json

/-- Python `dict.get` on an association list: first binding of the key, if any. -/
def dictGet : List (String × Json) → String → Option Json
  | [], _ => none
  | kv :: rest, k => if kv.1 = k then some kv.2 else dictGet rest k

/-- Strip `sep` from the front of `rest`: `some` remainder when `sep` is a
prefix, `none` otherwise. -/
def stripSep : List Char → List Char → Option (List Char)
  | [], rest => some rest
  | _ :: _, [] => none
  | p :: ps, c :: cs => if c = p then stripSep ps cs else none

/-- Left-to-right scan of Python `str.split(sep)`: cut at each non-overlapping
occurrence of `sep`.  The fuel is the input length (each step consumes at
least one character), so the zero-fuel case is unreachable. -/
def splitAux (sep : List Char) : Nat → List Char → List Char → List (List Char)
  | _, [], acc => [acc.reverse]
  | 0, rest, acc => [acc.reverse ++ rest]
  | fuel + 1, c :: cs, acc =>
    match stripSep sep (c :: cs) with
    | some rest => acc.reverse :: splitAux sep fuel rest []
    | none => splitAux sep fuel cs (c :: acc)

/-- Python `s.split(sep)` for a non-empty separator (an empty separator raises
in Python and never occurs here). -/
def pySplit (s sep : String) : List String :=
  match sep.data with
  | [] => [s]
  | shd :: stl => (splitAux (shd :: stl) s.data.length s.data []).map String.mk

mutual
/-- `copy.deepcopy` on a JSON value: rebuilds the whole tree. -/
def deepcopy : Json → Json
  | .null => .null
  | .bool b => .bool b
  | .num n => .num n
  | .str s => .str s
  | .arr es => .arr (deepcopyList es)
  | .obj ms => .obj (deepcopyFields ms)

def deepcopyList : List Json → List Json
  | [] => []
  | e :: es => deepcopy e :: deepcopyList es

def deepcopyFields : List (String × Json) → List (String × Json)
  | [] => []
  | (k, v) :: ms => (k, deepcopy v) :: deepcopyFields ms
end

mutual
theorem deepcopy_eq : ∀ j : Json, deepcopy j = j
  | .null => rfl
  | .bool _ => rfl
  | .num _ => rfl
  | .str _ => rfl
  | .arr es => by rw [deepcopy, deepcopyList_eq]
  | .obj ms => by rw [deepcopy, deepcopyFields_eq]

theorem deepcopyList_eq : ∀ es : List Json, deepcopyList es = es
  | [] => rfl
  | e :: es => by rw [deepcopyList, deepcopy_eq, deepcopyList_eq]

theorem deepcopyFields_eq : ∀ ms : List (String × Json), deepcopyFields ms = ms
  | [] => rfl
  | (k, v) :: ms => by rw [deepcopyFields, deepcopy_eq, deepcopyFields_eq]
end

/-- A value found by `dictGet` is structurally smaller than the list it came from. -/
theorem sizeOf_dictGet : ∀ {kvs : List (String × Json)} {k : String} {v : Json},
    dictGet kvs k = some v → sizeOf v < sizeOf kvs
  | kv :: rest, k, v, h => by
    rw [dictGet] at h
    split at h
    · injection h with h2
      subst h2
      cases kv
      simp only [List.cons.sizeOf_spec, Prod.mk.sizeOf_spec]
      omega
    · have h1 := sizeOf_dictGet h
      cases kv
      simp only [List.cons.sizeOf_spec, Prod.mk.sizeOf_spec]
      omega

/-- The `result[key] = schema[key]` copying loop at the end of
`process_schema_with_const`: keeps, in the fixed key order, each listed key
present in the schema, with its value copied unchanged. -/
def copyKeys (kvs : List (String × Json)) : List String → List (String × Json)
  | [] => []
  | k :: rest =>
    match dictGet kvs k with
    | some v => (k, v) :: copyKeys kvs rest
    | none => copyKeys kvs rest

/-- The descriptor object built by the fall-through branch of
`process_schema_with_const`: `{"type": schema.get("type")}` followed by any of
`properties`, `items`, `required`, `oneOf`, `additionalProperties` present. -/
def descriptor (kvs : List (String × Json)) : Json :=
  Json.obj (("type", (dictGet kvs "type").getD Json.null) ::
    copyKeys kvs ["properties", "items", "required", "oneOf", "additionalProperties"])

mutual
/-- `BecknProcessor.process_schema_with_const`: compiles a schema node to a
template.  `const` wins outright; an object with `properties` compiles each
property recursively; an array with `items` compiles to a one-element list;
anything else becomes a descriptor object.  A non-dict node, or an object
branch whose `properties` is not a dict, crashes in Python; that unreachable
case is modelled as `Json.null`. -/
def process_schema_with_const (schema : Json) : Json :=
  match schema with
  | Json.obj kvs =>
    match dictGet kvs "const" with
    | some c => c
    | none =>
      match dictGet kvs "type" with
      | some (Json.str "object") =>
        match hp : dictGet kvs "properties" with
        | some (Json.obj props) => Json.obj (compileProps props)
        | some _ => Json.null
        | none => descriptor kvs
      | some (Json.str "array") =>
        match hi : dictGet kvs "items" with
        | some items => Json.arr [process_schema_with_const items]
        | none => descriptor kvs
      | _ => descriptor kvs
  | _ => Json.null
termination_by sizeOf schema
decreasing_by
  · have h1 := sizeOf_dictGet hp
    simp only [Json.obj.sizeOf_spec] at h1
    simp only [Json.obj.sizeOf_spec]
    omega
  · have h1 := sizeOf_dictGet hi
    simp only [Json.obj.sizeOf_spec]
    omega

/-- The dict comprehension over `schema["properties"].items()` in the object
branch of `process_schema_with_const`. -/
def compileProps : List (String × Json) → List (String × Json)
  | [] => []
  | (k, v) :: rest => (k, process_schema_with_const v) :: compileProps rest
termination_by l => sizeOf l
end

/-- Python dict assignment `d[k] = v` on an association list: an existing key
keeps its position and gets the new value; a new key is appended at the end. -/
def assocSet : List (String × Json) → String → Json → List (String × Json)
  | [], k, v => [(k, v)]
  | kv :: rest, k, v => if kv.1 = k then (k, v) :: rest else kv :: assocSet rest k v

/-- The `current[key]` the mutator walks into: the existing child dict fields
when `key` maps to a dict, else the fresh empty dict the loop installs
(`current[key] = {}` when the key is absent or its value is not a dict). -/
def childObj (kvs : List (String × Json)) (k : String) : List (String × Json) :=
  match dictGet kvs k with
  | some (Json.obj s) => s
  | _ => []

/-- The loop of `BecknProcessor._set_nested_value` over the split segments:
all but the last segment descend (creating/overwriting as needed), the last
segment is assigned unconditionally.  An empty segment list (unreachable:
`split` never returns an empty list) leaves the dict unchanged. -/
def setKeys : List (String × Json) → List String → Json → List (String × Json)
  | kvs, [], _ => kvs
  | kvs, [k], v => assocSet kvs k v
  | kvs, k :: k2 :: rest, v =>
    assocSet kvs k (Json.obj (setKeys (childObj kvs k) (k2 :: rest) v))

/-- `BecknProcessor._set_nested_value`: split the dot-path and walk/assign.
Python requires `data` to be a dict; a non-dict (which would raise a
`TypeError`) is modelled as returned unchanged and is unreachable in the
theorems below. -/
def set_nested_value (data : Json) (key_path : String) (value : Json) : Json :=
  match data with
  | Json.obj kvs => Json.obj (setKeys kvs (pySplit key_path ".") value)
  | d => d

/-- The runtime type of a registered dynamic resolver: an `httpx.URL`, a plain
string, a callable (identified by an index into the effect environment), or
any other Python object (the rejected case). -/
inductive Resolver where
  | url (u : String)
  | lit (s : String)
  | call (f : Nat)
  | other

/-- Errors a dynamic-resolve pass can raise: a transport error from
`client.get`, an exception from a callable resolver, or the `TypeError` for an
unrecognized resolver. -/
inductive DynError where
  | fetchError (msg : String)
  | callableError (msg : String)
  | typeMismatch (msg : String)

/-- The effect environment of one dynamic-resolve pass: what each network GET
returns (response text, or a raised transport error) and what each callable
returns (a value, or a raised exception). -/
structure DynEnv where
  fetch : String → Except String String
  call : Nat → Except String Json

/-- The state of a `BecknProcessor` instance. -/
structure BecknProcessor where
  usecase_schema : Json
  parsed_usecase : Json
  static_data : List (String × Json)
  dynamic_resolvers : List (String × Resolver)

/-- `BecknProcessor.apply_yaml_values`: deep-copy `parsed_usecase`, apply each
`(path, value)` of `static_data` in iteration order with the mutator, and
return the copy.  The second component is the processor after the call (the
method assigns no attribute of `self`). -/
def apply_yaml_values (p : BecknProcessor) : Json × BecknProcessor :=
  (p.static_data.foldl (fun acc kv => set_nested_value acc kv.1 kv.2)
    (deepcopy p.parsed_usecase), p)

/-- `BecknProcessor.static_resolve`: compile the schema into
`parsed_usecase`, then overlay the static values. -/
def static_resolve (p : BecknProcessor) : BecknProcessor :=
  let p1 := { p with parsed_usecase := process_schema_with_const p.usecase_schema }
  { p1 with parsed_usecase := (apply_yaml_values p1).1 }

/-- `BecknProcessor.add_dynamic_resolver`: append a `{path, resolver}` entry. -/
def add_dynamic_resolver (p : BecknProcessor) (path : String) (r : Resolver) :
    BecknProcessor :=
  { p with dynamic_resolvers := p.dynamic_resolvers ++ [(path, r)] }

/-- Resolution of one entry inside the `dynamic_resolve` loop: an `httpx.URL`
is fetched and its response text used; a plain string is used as it is; a
callable is invoked (awaited if needed); anything else raises
`TypeError("Resolver must be either a URL string or a callable function")`. -/
def resolveOne (env : DynEnv) : Resolver → Except DynError Json
  | Resolver.url u =>
    match env.fetch u with
    | Except.error m => Except.error (DynError.fetchError m)
    | Except.ok text => Except.ok (Json.str text)
  | Resolver.lit s => Except.ok (Json.str s)
  | Resolver.call f =>
    match env.call f with
    | Except.error m => Except.error (DynError.callableError m)
    | Except.ok v => Except.ok v
  | Resolver.other =>
    Except.error
      (DynError.typeMismatch "Resolver must be either a URL string or a callable function")

/-- The `for entry in self.dynamic_resolvers` loop of `dynamic_resolve`,
acting on the local working document: the first raising entry aborts the
loop; each resolved value is written at its path with the mutator. -/
def resolveEntries (env : DynEnv) :
    List (String × Resolver) → Json → Except DynError Json
  | [], doc => Except.ok doc
  | (path, r) :: rest, doc =>
    match resolveOne env r with
    | Except.error e => Except.error e
    | Except.ok v => resolveEntries env rest (set_nested_value doc path v)

/-- `BecknProcessor.dynamic_resolve`: run the loop on a deep copy of
`parsed_usecase`; only after the whole loop succeeds is
`self.parsed_usecase = updated_template` executed.  A raise propagates with
`self` untouched (no attribute was assigned before the final line). -/
def dynamic_resolve (env : DynEnv) (p : BecknProcessor) :
    Except DynError Unit × BecknProcessor :=
  match resolveEntries env p.dynamic_resolvers (deepcopy p.parsed_usecase) with
  | Except.error e => (Except.error e, p)
  | Except.ok doc => (Except.ok Unit.unit, { p with parsed_usecase := doc })

/-- One violation reported by the external `jsonschema` validator: its
location as an ordered key sequence and a message. -/
structure SchemaViolation where
  path : List String
  message : String

/-- Lexicographic strict order on character lists: how Python compares
strings, code point by code point. -/
def lexLt : List Char → List Char → Bool
  | [], [] => false
  | [], _ :: _ => true
  | _ :: _, [] => false
  | c :: cs, d :: ds => if c < d then true else if d < c then false else lexLt cs ds

/-- Python string comparison `a < b`. -/
def strLt (a b : String) : Bool := lexLt a.data b.data

/-- Lexicographic (non-strict) order on violation paths: how Python compares
the key sequences `e.path` when sorting. -/
def pathLe : List String → List String → Bool
  | [], _ => true
  | _ :: _, [] => false
  | a :: ra, b :: rb => if strLt a b then true else if strLt b a then false else pathLe ra rb

/-- The sort relation of `sorted(errors, key=lambda e: e.path)`. -/
def violationLe (a b : SchemaViolation) : Prop := pathLe a.path b.path = true

instance : DecidableRel violationLe :=
  fun a b => instDecidableEqBool (pathLe a.path b.path) true

/-- Model of `sorted(errors, key=lambda e: e.path)`: sort the violation list
by path. -/
def sortViolations (errs : List SchemaViolation) : List SchemaViolation :=
  List.insertionSort violationLe errs

/-- `BecknProcessor.get_parsed_usecase`.  The external Draft7 validator is
abstracted by its output `errs = list(validator.iter_errors(parsed_usecase))`:
the violations of the current document.  If any exist, raise `ValueError`
carrying the sorted list and the document; else return the document.  The
second component is the processor after the call (the method assigns no
attribute of `self`). -/
def get_parsed_usecase (errs : List SchemaViolation) (p : BecknProcessor) :
    Except (List SchemaViolation × Json) Json × BecknProcessor :=
  (match sortViolations errs with
   | [] => Except.ok p.parsed_usecase
   | e :: rest => Except.error (e :: rest, p.parsed_usecase), p)

/-- The state of the `HostMappingCache` singleton: `cache is None` is the
Uninitialized state, `some mapping` the Populated state. -/
structure HostMappingCache where
  cache : Option (List (String × String))

/-- The error raised by `fetch_mapping` on a non-200 status. -/
inductive HostError where
  | fetchError (msg : String)

/-- Python `dict.get` on a string-to-string mapping. -/
def lookupStr : List (String × String) → String → Option String
  | [], _ => none
  | kv :: rest, k => if kv.1 = k then some kv.2 else lookupStr rest k

/-- `HostMappingCache.fetch_mapping`, with the GET response (status code and
JSON body) passed explicitly: on a non-200 status raise
`ValueError("Failed to fetch mapping data")` before any assignment; on 200
replace the cache wholesale. -/
def fetch_mapping (resp : Nat × List (String × String)) (c : HostMappingCache) :
    Except HostError Unit × HostMappingCache :=
  if resp.1 ≠ 200 then
    (Except.error (HostError.fetchError "Failed to fetch mapping data"), c)
  else
    (Except.ok Unit.unit, { cache := some resp.2 })

/-- `HostMappingCache.get_resolver_host`: fetch first when the cache is still
`None`, then look the host up.  (After a successful fetch the cache is always
populated; `getD []` stands for the then-unreachable `None` dereference.) -/
def get_resolver_host (resp : Nat × List (String × String)) (host : String)
    (c : HostMappingCache) : Except HostError (Option String) × HostMappingCache :=
  match c.cache with
  | none =>
    match fetch_mapping resp c with
    | (Except.error e, c2) => (Except.error e, c2)
    | (Except.ok _, c2) => (Except.ok (lookupStr (c2.cache.getD []) host), c2)
  | some m => (Except.ok (lookupStr m host), c)

/-- `DeeplinkResolver.extract_resolver_and_uuid`: split on `"://"`, take the
second piece, split it on `"/"`, and require at least two parts; a missing
scheme separator (`IndexError`) or too few parts both raise
`ValueError("Invalid deeplink format")`. -/
def extract_resolver_and_uuid (deeplink : String) : Except String (String × String) :=
  match pySplit deeplink "://" with
  | _ :: second :: _ =>
    match pySplit second "/" with
    | p0 :: p1 :: _ => Except.ok (p0, p1)
    | _ => Except.error "Invalid deeplink format"
  | _ => Except.error "Invalid deeplink format"

/-- How a call of `DeeplinkResolver.fetch_usecase` can end: the parsed JSON
body, a raised `ValueError` with its message, or the crash that follows a
swallowed transport exception, when the unbound local `response` is read. -/
inductive FetchOutcome where
  | ok (doc : Json)
  | valueError (msg : String)
  | unboundLocalResponse

/-- `DeeplinkResolver.fetch_usecase`, with the usecase GET modelled by
`usecaseGet` (response status and JSON body, or a raised transport exception)
and the host-mapping GET by `mappingResp`.  The `try/except: pass` around the
GET swallows a transport exception and falls through to
`response.status_code`, where the unbound local crashes the call. -/
def fetch_usecase (usecaseGet : String → Except String (Nat × Json))
    (mappingResp : Nat × List (String × String)) (cache : HostMappingCache)
    (deeplink : String) : FetchOutcome × HostMappingCache :=
  match extract_resolver_and_uuid deeplink with
  | Except.error msg => (FetchOutcome.valueError msg, cache)
  | Except.ok (resolver, uuid) =>
    match get_resolver_host mappingResp resolver cache with
    | (Except.error (HostError.fetchError m), c2) => (FetchOutcome.valueError m, c2)
    | (Except.ok found, c2) =>
      match found with
      | none => (FetchOutcome.valueError "Resolver host not found", c2)
      | some host =>
        if host = "" then (FetchOutcome.valueError "Resolver host not found", c2)
        else
          match usecaseGet (host ++ "/" ++ uuid) with
          | Except.error _ => (FetchOutcome.unboundLocalResponse, c2)
          | Except.ok (status, body) =>
            if status ≠ 200 then
              (FetchOutcome.valueError ("Error fetching usecase: HTTP " ++ toString status), c2)
            else (FetchOutcome.ok body, c2)

/-- Python `sub in msg` (substring occurrence) for a non-empty `sub`: the
split at `sub` has at least two pieces exactly when `sub` occurs in `msg`. -/
def mentions (msg sub : String) : Bool := decide (2 ≤ (pySplit msg sub).length)

/-! ### Helper lemmas: the string and path orders behave like linear orders -/

theorem lexLt_antisymm : ∀ {a b : List Char},
    lexLt a b = false → lexLt b a = false → a = b
  | [], [], _, _ => rfl
  | [], _ :: _, h1, _ => by simp [lexLt] at h1
  | _ :: _, [], _, h2 => by simp [lexLt] at h2
  | c :: cs, d :: ds, h1, h2 => by
    rw [lexLt] at h1 h2
    by_cases hcd : c < d
    · simp [hcd] at h1
    · by_cases hdc : d < c
      · simp [hdc] at h2
      · have hce : c = d := le_antisymm (not_lt.mp hdc) (not_lt.mp hcd)
        subst hce
        simp [hcd] at h1 h2
        exact congrArg (List.cons c) (lexLt_antisymm h1 h2)

theorem lexLt_trans : ∀ {a b c : List Char},
    lexLt a b = true → lexLt b c = true → lexLt a c = true
  | [], [], _, h1, _ => by simp [lexLt] at h1
  | [], _ :: _, [], _, h2 => by simp [lexLt] at h2
  | [], _ :: _, _ :: _, _, _ => by simp [lexLt]
  | _ :: _, [], _, h1, _ => by simp [lexLt] at h1
  | _ :: _, _ :: _, [], _, h2 => by simp [lexLt] at h2
  | x :: xs, y :: ys, z :: zs, h1, h2 => by
    rw [lexLt] at h1 h2 ⊢
    by_cases hxy : x < y
    · by_cases hyz : y < z
      · simp [lt_trans hxy hyz]
      · by_cases hzy : z < y
        · simp [hyz, hzy] at h2
        · have hey : y = z := le_antisymm (not_lt.mp hzy) (not_lt.mp hyz)
          subst hey
          simp [hxy]
    · by_cases hyx : y < x
      · simp [hxy, hyx] at h1
      · have hex : x = y := le_antisymm (not_lt.mp hyx) (not_lt.mp hxy)
        subst hex
        simp [lt_irrefl] at h1
        by_cases hxz : x < z
        · simp [hxz]
        · by_cases hzx : z < x
          · simp [hxz, hzx] at h2
          · have hez : x = z := le_antisymm (not_lt.mp hzx) (not_lt.mp hxz)
            subst hez
            simp [lt_irrefl] at h2 ⊢
            exact lexLt_trans h1 h2

theorem strLt_antisymm {a b : String} (h1 : strLt a b = false)
    (h2 : strLt b a = false) : a = b := by
  rw [strLt] at h1 h2
  cases a
  cases b
  exact congrArg String.mk (lexLt_antisymm h1 h2)

theorem strLt_trans {a b c : String} (h1 : strLt a b = true)
    (h2 : strLt b c = true) : strLt a c = true := by
  rw [strLt] at h1 h2 ⊢
  exact lexLt_trans h1 h2

theorem pathLe_total : ∀ a b : List String, pathLe a b = true ∨ pathLe b a = true
  | [], _ => Or.inl rfl
  | _ :: _, [] => Or.inr rfl
  | a :: ra, b :: rb => by
    rw [pathLe, pathLe]
    by_cases hab : strLt a b = true
    · simp [hab]
    · by_cases hba : strLt b a = true
      · simp [hba]
      · simp only [Bool.not_eq_true] at hab hba
        simp [hab, hba]
        exact pathLe_total ra rb

theorem pathLe_trans : ∀ {a b c : List String},
    pathLe a b = true → pathLe b c = true → pathLe a c = true
  | [], _, _, _, _ => rfl
  | _ :: _, [], _, h1, _ => by simp [pathLe] at h1
  | _ :: _, _ :: _, [], _, h2 => by simp [pathLe] at h2
  | x :: xs, y :: ys, z :: zs, h1, h2 => by
    rw [pathLe] at h1 h2 ⊢
    by_cases hxy : strLt x y = true
    · by_cases hyz : strLt y z = true
      · simp [strLt_trans hxy hyz]
      · by_cases hzy : strLt z y = true
        · simp [hyz, hzy] at h2
        · simp only [Bool.not_eq_true] at hyz hzy
          have hey : y = z := strLt_antisymm hyz hzy
          subst hey
          simp [hxy]
    · by_cases hyx : strLt y x = true
      · simp [hxy, hyx] at h1
      · simp only [Bool.not_eq_true] at hxy hyx
        have hex : x = y := strLt_antisymm hxy hyx
        subst hex
        simp [hxy] at h1
        by_cases hxz : strLt x z = true
        · simp [hxz]
        · by_cases hzx : strLt z x = true
          · simp [hxz, hzx] at h2
          · simp only [Bool.not_eq_true] at hxz hzx
            have hez : x = z := strLt_antisymm hxz hzx
            subst hez
            simp [hxz] at h2 ⊢
            exact pathLe_trans h1 h2

instance : IsTotal SchemaViolation violationLe :=
  ⟨fun a b => pathLe_total a.path b.path⟩

instance : IsTrans SchemaViolation violationLe :=
  ⟨fun _ _ _ hab hbc => pathLe_trans hab hbc⟩

/-! ### Helper lemmas about the embedded operations -/

theorem compileProps_eq_map : ∀ l : List (String × Json),
    compileProps l = l.map (fun kv => (kv.1, process_schema_with_const kv.2))
  | [] => by simp [compileProps]
  | (k, v) :: rest => by
    rw [compileProps, compileProps_eq_map rest, List.map_cons]

theorem dictGet_assocSet : ∀ (kvs : List (String × Json)) (k : String) (v : Json),
    dictGet (assocSet kvs k v) k = some v
  | [], k, v => by simp [assocSet, dictGet]
  | kv :: rest, k, v => by
    rw [assocSet]
    by_cases h : kv.1 = k
    · simp [h, dictGet]
    · simp [h, dictGet, dictGet_assocSet rest k v]

theorem resolveEntries_ok_exists (env : DynEnv) :
    ∀ (entries : List (String × Resolver)) (doc : Json),
    (∃ d, resolveEntries env entries doc = Except.ok d)
      ↔ ∀ pr ∈ entries, ∃ v, resolveOne env pr.2 = Except.ok v
  | [], doc => by simp [resolveEntries]
  | (path, r) :: rest, doc => by
    rw [resolveEntries]
    rcases hr : resolveOne env r with e | v
    · constructor
      · rintro ⟨d, hd⟩
        cases hd
      · intro h
        obtain ⟨v, hv⟩ := h (path, r) (List.mem_cons_self _ _)
        rw [hr] at hv
        cases hv
    · rw [resolveEntries_ok_exists env rest (set_nested_value doc path v)]
      simp [List.forall_mem_cons, hr]

/-! ### Claim theorems -/

/-- C2: `process_schema_with_const` returns the `const` value verbatim when
present (overriding `type`); a mapping from each property name to its
recursively compiled schema, in declaration order, when type is `"object"`
and `properties` is present; a one-element list of the compiled `items`
schema when type is `"array"` and `items` is present; and otherwise a
descriptor object holding the `type` plus any of `properties`, `items`,
`required`, `oneOf`, `additionalProperties` copied unchanged. -/
theorem process_schema_with_const_cases (kvs : List (String × Json)) :
    (∀ c, dictGet kvs "const" = some c →
      process_schema_with_const (Json.obj kvs) = c)
    ∧ (∀ props, dictGet kvs "const" = none →
        dictGet kvs "type" = some (Json.str "object") →
        dictGet kvs "properties" = some (Json.obj props) →
        process_schema_with_const (Json.obj kvs)
          = Json.obj (props.map (fun kv => (kv.1, process_schema_with_const kv.2))))
    ∧ (∀ items, dictGet kvs "const" = none →
        dictGet kvs "type" = some (Json.str "array") →
        dictGet kvs "items" = some items →
        process_schema_with_const (Json.obj kvs)
          = Json.arr [process_schema_with_const items])
    ∧ (dictGet kvs "const" = none →
        ¬(dictGet kvs "type" = some (Json.str "object")
            ∧ (dictGet kvs "properties").isSome = true) →
        ¬(dictGet kvs "type" = some (Json.str "array")
            ∧ (dictGet kvs "items").isSome = true) →
        process_schema_with_const (Json.obj kvs) = descriptor kvs) := by
  refine ⟨fun c h1 => ?_, fun props h1 h2 h3 => ?_, fun items h1 h2 h3 => ?_,
    fun h1 h2 h3 => ?_⟩
  · rw [process_schema_with_const.eq_def]
    simp [h1]
  · rw [process_schema_with_const.eq_def]
    simp only [h1, h2]
    split
    · rename_i props2 hp
      rw [h3] at hp
      injection hp with hp2
      injection hp2 with hp3
      subst hp3
      rw [compileProps_eq_map]
    · rename_i val hval hp
      rw [h3] at hp
      injection hp with hp2
      exact absurd hp2.symm (fun h => hval props h)
    · rename_i hp
      rw [h3] at hp
      cases hp
  · rw [process_schema_with_const.eq_def]
    simp only [h1, h2]
    split
    · rename_i items2 hi
      rw [h3] at hi
      injection hi with hi2
      subst hi2
      rfl
    · rename_i hi
      rw [h3] at hi
      cases hi
  · rw [process_schema_with_const.eq_def]
    simp only [h1]
    split
    · rename_i ht
      have hps : dictGet kvs "properties" = none := by
        rcases hps : dictGet kvs "properties" with _ | pv
        · rfl
        · exact absurd ⟨ht, by rw [hps]; rfl⟩ h2
      split
      · rename_i hp
        rw [hps] at hp
        cases hp
      · rename_i hp
        rw [hps] at hp
        cases hp
      · rfl
    · rename_i ht
      have his : dictGet kvs "items" = none := by
        rcases his : dictGet kvs "items" with _ | iv
        · rfl
        · exact absurd ⟨ht, by rw [his]; rfl⟩ h3
      split
      · rename_i hi
        rw [his] at hi
        cases hi
      · rfl
    · rfl

/-- C2 witness: the object case at a concrete schema, its `const` property
compiled recursively. -/
theorem process_schema_with_const_cases_witness :
    process_schema_with_const (Json.obj [("type", Json.str "object"),
        ("properties", Json.obj [("domain", Json.obj [("const", Json.str "mobility")])])])
      = Json.obj [("domain",
          process_schema_with_const (Json.obj [("const", Json.str "mobility")]))] :=
  (process_schema_with_const_cases [("type", Json.str "object"),
      ("properties", Json.obj [("domain", Json.obj [("const", Json.str "mobility")])])]).2.1
    [("domain", Json.obj [("const", Json.str "mobility")])] rfl rfl rfl

/-- C3: `_set_nested_value` splits the dot-path on literal dots; every
segment but the last descends into the existing child dict, or into a fresh
empty dict when the key is absent or its current value is not a dict; the
final segment is assigned unconditionally; the operation is total; and
`setPath(\x7b\x7d, "a.b.c", 5)` yields the expected nesting. -/
theorem set_nested_value_spec :
    (∀ kvs key_path v, set_nested_value (Json.obj kvs) key_path v
        = Json.obj (setKeys kvs (pySplit key_path ".") v))
    ∧ (∀ kvs k v, setKeys kvs [k] v = assocSet kvs k v)
    ∧ (∀ kvs k k2 rest v, setKeys kvs (k :: k2 :: rest) v
        = assocSet kvs k (Json.obj (setKeys (childObj kvs k) (k2 :: rest) v)))
    ∧ (∀ kvs k s, dictGet kvs k = some (Json.obj s) → childObj kvs k = s)
    ∧ (∀ kvs k, dictGet kvs k = none
          ∨ (∃ j, dictGet kvs k = some j ∧ ∀ s, j ≠ Json.obj s) →
        childObj kvs k = [])
    ∧ (∀ kvs k v, dictGet (assocSet kvs k v) k = some v)
    ∧ set_nested_value (Json.obj []) "a.b.c" (Json.num 5)
        = Json.obj [("a", Json.obj [("b", Json.obj [("c", Json.num 5)])])] := by
  refine ⟨fun kvs key_path v => rfl, fun kvs k v => rfl, fun kvs k k2 rest v => rfl,
    fun kvs k s h => ?_, fun kvs k h => ?_, dictGet_assocSet, rfl⟩
  · rw [childObj, h]
  · rcases h with h | ⟨j, hj, hns⟩
    · rw [childObj, h]
    · rw [childObj, hj]
      cases j with
      | obj s => exact absurd rfl (hns s)
      | null => rfl
      | bool b => rfl
      | num n => rfl
      | str s => rfl
      | arr es => rfl

/-- C3 witness: a non-dict value on the walked path is replaced by a fresh
empty dict. -/
theorem set_nested_value_spec_witness :
    childObj [("a", Json.num 1)] "a" = [] :=
  set_nested_value_spec.2.2.2.2.1 [("a", Json.num 1)] "a"
    (Or.inr ⟨Json.num 1, rfl, fun _ h => Json.noConfusion h⟩)

/-- C4: `apply_yaml_values` operates on a deep copy and never mutates the
processor: the stored template is structurally identical before and after
the call, and the returned document is the copy with each static
`(path, value)` pair applied by the mutator in iteration order. -/
theorem apply_yaml_values_pure (p : BecknProcessor) :
    (apply_yaml_values p).2 = p
    ∧ (apply_yaml_values p).2.parsed_usecase = p.parsed_usecase
    ∧ deepcopy p.parsed_usecase = p.parsed_usecase
    ∧ (apply_yaml_values p).1
      = p.static_data.foldl (fun acc kv => set_nested_value acc kv.1 kv.2)
          p.parsed_usecase :=
  ⟨rfl, rfl, deepcopy_eq _, by rw [apply_yaml_values, deepcopy_eq]⟩

/-- C1: `dynamic_resolve` is atomic.  If any entry fails, the whole engine
state — in particular `parsed_usecase` — is exactly what it was before the
call; the pass succeeds exactly when every registered entry resolves without
error; and on success the working document built by the loop is published as
the new `parsed_usecase`. -/
theorem dynamic_resolve_atomic (env : DynEnv) (p : BecknProcessor) :
    (∀ e, (dynamic_resolve env p).1 = Except.error e →
      (dynamic_resolve env p).2 = p)
    ∧ ((dynamic_resolve env p).1 = Except.ok Unit.unit ↔
        ∀ pr ∈ p.dynamic_resolvers, ∃ v, resolveOne env pr.2 = Except.ok v)
    ∧ (∀ doc, resolveEntries env p.dynamic_resolvers p.parsed_usecase
          = Except.ok doc →
        (dynamic_resolve env p).2.parsed_usecase = doc) := by
  have hbody : dynamic_resolve env p
      = match resolveEntries env p.dynamic_resolvers p.parsed_usecase with
        | Except.error e => (Except.error e, p)
        | Except.ok doc => (Except.ok Unit.unit, { p with parsed_usecase := doc }) := by
    rw [dynamic_resolve, deepcopy_eq]
  rcases hres : resolveEntries env p.dynamic_resolvers p.parsed_usecase with e | doc
  · rw [hres] at hbody
    refine ⟨fun e2 _ => by rw [hbody], ?_, fun doc2 h => ?_⟩
    · rw [hbody]
      constructor
      · intro h
        cases h
      · intro h
        obtain ⟨d, hd⟩ := (resolveEntries_ok_exists env p.dynamic_resolvers
          p.parsed_usecase).mpr h
        rw [hres] at hd
        cases hd
    · exact Except.noConfusion h
  · rw [hres] at hbody
    refine ⟨fun e h => ?_, ?_, fun doc2 h => ?_⟩
    · rw [hbody] at h
      cases h
    · rw [hbody]
      simp only [true_iff]
      exact (resolveEntries_ok_exists env p.dynamic_resolvers p.parsed_usecase).mp
        ⟨doc, hres⟩
    · injection h with h2
      subst h2
      rw [hbody]

/-- C1 witness: a pass whose only entry is a URI resolver hit by a transport
failure leaves the engine state unchanged. -/
theorem dynamic_resolve_atomic_witness :
    (dynamic_resolve ⟨fun _ => Except.error "connection refused", fun _ => Except.ok Json.null⟩
        ⟨Json.obj [], Json.obj [("context", Json.str "v")], [],
          [("message.x", Resolver.url "http://api.example/value")]⟩).2
      = ⟨Json.obj [], Json.obj [("context", Json.str "v")], [],
          [("message.x", Resolver.url "http://api.example/value")]⟩ :=
  (dynamic_resolve_atomic
      ⟨fun _ => Except.error "connection refused", fun _ => Except.ok Json.null⟩
      ⟨Json.obj [], Json.obj [("context", Json.str "v")], [],
        [("message.x", Resolver.url "http://api.example/value")]⟩).1
    (DynError.fetchError "connection refused") rfl

/-- C9: a plain-string resolver is always used unchanged as the resolved
value, whatever its content: it never consults the fetch effect, and among
the resolver kinds only `httpx.URL` values do (changing the fetch effect
cannot change the outcome of any non-URL resolver). -/
theorem literal_resolver_no_fetch :
    (∀ env s, resolveOne env (Resolver.lit s) = Except.ok (Json.str s))
    ∧ (∀ env env2 r, env.call = env2.call → (∀ u, r ≠ Resolver.url u) →
        resolveOne env r = resolveOne env2 r)
    ∧ (∀ env p path s, p.dynamic_resolvers = [(path, Resolver.lit s)] →
        (dynamic_resolve env p).1 = Except.ok Unit.unit) := by
  refine ⟨fun env s => rfl, fun env env2 r hcall hnu => ?_, fun env p path s h => ?_⟩
  · cases r with
    | url u => exact absurd rfl (hnu u)
    | lit s => rfl
    | call f => rw [resolveOne, resolveOne, hcall]
    | other => rfl
  · rw [dynamic_resolve, h]
    rfl

/-- C9 witness: a string spelled like a URL is still used literally, even
when every network fetch would fail. -/
theorem literal_resolver_no_fetch_witness :
    resolveOne ⟨fun _ => Except.error "network down", fun _ => Except.ok Json.null⟩
        (Resolver.lit "https://example.com/value")
      = resolveOne ⟨fun _ => Except.ok "fetched", fun _ => Except.ok Json.null⟩
        (Resolver.lit "https://example.com/value") :=
  literal_resolver_no_fetch.2.1
    ⟨fun _ => Except.error "network down", fun _ => Except.ok Json.null⟩
    ⟨fun _ => Except.ok "fetched", fun _ => Except.ok Json.null⟩
    (Resolver.lit "https://example.com/value") rfl
    (fun _ h => Resolver.noConfusion h)

/-- C6 counterexample: the `TypeError` raised for an unrecognized resolver
carries the fixed message `"Resolver must be either a URL string or a
callable function"`; the offending entry's path (here `"context.bad.path"`)
does not occur in it, and a different path produces the identical error. -/
theorem type_mismatch_message_counterexample :
    (dynamic_resolve ⟨fun _ => Except.ok "", fun _ => Except.ok Json.null⟩
        ⟨Json.obj [], Json.obj [], [], [("context.bad.path", Resolver.other)]⟩).1
      = Except.error (DynError.typeMismatch
          "Resolver must be either a URL string or a callable function")
    ∧ (dynamic_resolve ⟨fun _ => Except.ok "", fun _ => Except.ok Json.null⟩
        ⟨Json.obj [], Json.obj [], [], [("another.path", Resolver.other)]⟩).1
      = Except.error (DynError.typeMismatch
          "Resolver must be either a URL string or a callable function")
    ∧ mentions "Resolver must be either a URL string or a callable function"
        "context.bad.path" = false :=
  ⟨rfl, rfl, by decide⟩

/-- C6 (amended): when a dynamic-resolve pass reaches an entry whose resolver
is neither a URI, a literal string, nor a callable (every earlier entry
having resolved), it fails immediately with a type-mismatch error — whose
message is the fixed string above, not one naming the offending path — and
the engine state is left unchanged. -/
theorem dynamic_resolve_type_mismatch (env : DynEnv) (p : BecknProcessor)
    (pre rest : List (String × Resolver)) (path : String)
    (hsplit : p.dynamic_resolvers = pre ++ (path, Resolver.other) :: rest)
    (hpre : ∀ pr ∈ pre, ∃ v, resolveOne env pr.2 = Except.ok v) :
    (dynamic_resolve env p).1
      = Except.error (DynError.typeMismatch
          "Resolver must be either a URL string or a callable function")
    ∧ (dynamic_resolve env p).2 = p := by
  have aux : ∀ (l : List (String × Resolver)) (doc : Json),
      (∀ pr ∈ l, ∃ v, resolveOne env pr.2 = Except.ok v) →
      resolveEntries env (l ++ (path, Resolver.other) :: rest) doc
        = Except.error (DynError.typeMismatch
            "Resolver must be either a URL string or a callable function") := by
    intro l
    induction l with
    | nil => intro doc _; rfl
    | cons q l2 ih =>
      intro doc hq
      obtain ⟨v, hv⟩ := hq q (List.mem_cons_self _ _)
      obtain ⟨qp, qr⟩ := q
      rw [List.cons_append, resolveEntries, hv]
      exact ih _ (fun pr hpr => hq pr (List.mem_cons_of_mem _ hpr))
  rw [dynamic_resolve, hsplit, aux _ _ hpre]
  exact ⟨rfl, rfl⟩

/-- C6 (amended) witness: a mixed pass — one successful literal entry, then
an unrecognized resolver — raises the `TypeError` and leaves the state as it
was. -/
theorem dynamic_resolve_type_mismatch_witness :
    (dynamic_resolve ⟨fun _ => Except.ok "text", fun _ => Except.ok Json.null⟩
        ⟨Json.obj [], Json.obj [], [],
          [("context.city", Resolver.lit "Pune"), ("bad.path", Resolver.other)]⟩).2
      = ⟨Json.obj [], Json.obj [], [],
          [("context.city", Resolver.lit "Pune"), ("bad.path", Resolver.other)]⟩ :=
  (dynamic_resolve_type_mismatch
      ⟨fun _ => Except.ok "text", fun _ => Except.ok Json.null⟩
      ⟨Json.obj [], Json.obj [], [],
        [("context.city", Resolver.lit "Pune"), ("bad.path", Resolver.other)]⟩
      [("context.city", Resolver.lit "Pune")] [] "bad.path" rfl
      (by
        intro pr hpr
        rw [List.mem_singleton.mp hpr]
        exact ⟨Json.str "Pune", rfl⟩)).2

/-- C10: `static_resolve` recomputes `parsed_usecase` wholesale from the
schema and the static data, independently of the previous `parsed_usecase`;
it is idempotent; and running it after `dynamic_resolve` discards every
dynamically resolved value. -/
theorem static_resolve_recompute (p q : BecknProcessor) (env : DynEnv)
    (h1 : p.usecase_schema = q.usecase_schema)
    (h2 : p.static_data = q.static_data) :
    (static_resolve p).parsed_usecase = (static_resolve q).parsed_usecase
    ∧ static_resolve (static_resolve p) = static_resolve p
    ∧ static_resolve (dynamic_resolve env p).2 = static_resolve p := by
  have key : ∀ r : BecknProcessor, static_resolve r
      = ⟨r.usecase_schema,
          r.static_data.foldl (fun acc kv => set_nested_value acc kv.1 kv.2)
            (process_schema_with_const r.usecase_schema),
          r.static_data, r.dynamic_resolvers⟩ := by
    intro r
    rw [static_resolve]
    rw [apply_yaml_values]
    rw [deepcopy_eq]
  have hpres : (dynamic_resolve env p).2.usecase_schema = p.usecase_schema
      ∧ (dynamic_resolve env p).2.static_data = p.static_data
      ∧ (dynamic_resolve env p).2.dynamic_resolvers = p.dynamic_resolvers := by
    rw [dynamic_resolve]
    rcases resolveEntries env p.dynamic_resolvers (deepcopy p.parsed_usecase)
      with e | doc
    · exact ⟨rfl, rfl, rfl⟩
    · exact ⟨rfl, rfl, rfl⟩
  refine ⟨?_, ?_, ?_⟩
  · rw [key p, key q, h1, h2]
  · rw [key p, key ⟨p.usecase_schema, _, p.static_data, p.dynamic_resolvers⟩]
  · rw [key (dynamic_resolve env p).2, key p, hpres.1, hpres.2.1, hpres.2.2]

/-- C10 witness: two engines sharing schema and static data but holding
different current documents produce the same `parsed_usecase` after
`static_resolve`. -/
theorem static_resolve_recompute_witness :
    (static_resolve ⟨Json.obj [("type", Json.str "string")], Json.obj [],
        [("context.version", Json.str "1.0.0")], []⟩).parsed_usecase
      = (static_resolve ⟨Json.obj [("type", Json.str "string")],
          Json.str "left over from a dynamic pass",
          [("context.version", Json.str "1.0.0")], []⟩).parsed_usecase :=
  (static_resolve_recompute
      ⟨Json.obj [("type", Json.str "string")], Json.obj [],
        [("context.version", Json.str "1.0.0")], []⟩
      ⟨Json.obj [("type", Json.str "string")],
        Json.str "left over from a dynamic pass",
        [("context.version", Json.str "1.0.0")], []⟩
      ⟨fun _ => Except.ok "", fun _ => Except.ok Json.null⟩ rfl rfl).1

/-- C7: with the cache Uninitialized (`cache is None`) and the mapping fetch
answering a non-success status, `get_resolver_host` propagates the fetch
error and the cache stays Uninitialized; and `fetch_mapping` changes the
cache only on a 200 response. -/
theorem get_resolver_host_fetch_error (resp : Nat × List (String × String))
    (host : String) (c : HostMappingCache)
    (h1 : c.cache = none) (h2 : resp.1 ≠ 200) :
    get_resolver_host resp host c
      = (Except.error (HostError.fetchError "Failed to fetch mapping data"), c)
    ∧ (get_resolver_host resp host c).2.cache = none
    ∧ (∀ r2 (c2 : HostMappingCache),
        (fetch_mapping r2 c2).2.cache ≠ c2.cache → r2.1 = 200) := by
  have hfm : fetch_mapping resp c
      = (Except.error (HostError.fetchError "Failed to fetch mapping data"), c) := by
    rw [fetch_mapping, if_pos h2]
  have hmain : get_resolver_host resp host c
      = (Except.error (HostError.fetchError "Failed to fetch mapping data"), c) := by
    rw [get_resolver_host]
    rw [h1]
    rw [hfm]
  refine ⟨hmain, by rw [hmain, h1], fun r2 c2 hne => ?_⟩
  by_cases hs : r2.1 = 200
  · exact hs
  · exact absurd (by rw [fetch_mapping, if_pos hs]) hne

/-- C7 witness: a 404 on the mapping fetch leaves a fresh cache
Uninitialized and surfaces the fetch error. -/
theorem get_resolver_host_fetch_error_witness :
    get_resolver_host (404, [("resolverx", "https://host.example")]) "resolverx" ⟨none⟩
      = (Except.error (HostError.fetchError "Failed to fetch mapping data"), ⟨none⟩) :=
  (get_resolver_host_fetch_error (404, [("resolverx", "https://host.example")])
    "resolverx" ⟨none⟩ rfl (by decide)).1

/-- C5: `get_parsed_usecase` raises exactly when the validator reports at
least one violation; the raised error carries the full violation list sorted
by path together with the offending document; on success the document is
returned unchanged and the processor state is untouched. -/
theorem get_parsed_usecase_spec (errs : List SchemaViolation) (p : BecknProcessor) :
    (get_parsed_usecase errs p).2 = p
    ∧ (errs = [] → (get_parsed_usecase errs p).1 = Except.ok p.parsed_usecase)
    ∧ (errs ≠ [] → (get_parsed_usecase errs p).1
        = Except.error (sortViolations errs, p.parsed_usecase))
    ∧ (sortViolations errs).Perm errs
    ∧ List.Sorted violationLe (sortViolations errs) := by
  refine ⟨rfl, fun h => ?_, fun h => ?_, List.perm_insertionSort violationLe errs,
    List.sorted_insertionSort violationLe errs⟩
  · subst h
    rfl
  · rcases hs : sortViolations errs with _ | ⟨e, rest⟩
    · exfalso
      apply h
      have hperm : (sortViolations errs).Perm errs :=
        List.perm_insertionSort violationLe errs
      rw [hs] at hperm
      exact hperm.symm.eq_nil
    · simp only [get_parsed_usecase, hs]

/-- C5 witness: two violations registered out of path order are reported
sorted by path, with the document snapshot attached. -/
theorem get_parsed_usecase_spec_witness :
    (get_parsed_usecase
        [⟨["message", "intent"], "intent required"⟩,
         ⟨["context", "domain"], "domain must be mobility"⟩]
        ⟨Json.obj [], Json.obj [], [], []⟩).1
      = Except.error (sortViolations
          [⟨["message", "intent"], "intent required"⟩,
           ⟨["context", "domain"], "domain must be mobility"⟩], Json.obj [])
    ∧ sortViolations
        [⟨["message", "intent"], "intent required"⟩,
         ⟨["context", "domain"], "domain must be mobility"⟩]
      = [⟨["context", "domain"], "domain must be mobility"⟩,
         ⟨["message", "intent"], "intent required"⟩] :=
  ⟨(get_parsed_usecase_spec
      [⟨["message", "intent"], "intent required"⟩,
       ⟨["context", "domain"], "domain must be mobility"⟩]
      ⟨Json.obj [], Json.obj [], [], []⟩).2.2.1 (List.cons_ne_nil _ _), rfl⟩

/-- C8 (code defect): a transport failure during the usecase GET is swallowed
by the bare `except: pass`, after which the unbound local `response` is read
— the call crashes instead of surfacing a fetch error (`ValueError`), for
any message whatsoever. -/
theorem fetch_usecase_swallowed_transport_failure :
    fetch_usecase (fun _ => Except.error "httpx.ConnectError: connection refused")
        (200, [("resolverx", "https://host.example")]) ⟨none⟩
        "beckn://resolverx/uuid-1"
      = (FetchOutcome.unboundLocalResponse,
          ⟨some [("resolverx", "https://host.example")]⟩)
    ∧ (∀ m, FetchOutcome.unboundLocalResponse ≠ FetchOutcome.valueError m) :=
  ⟨rfl, fun _ h => FetchOutcome.noConfusion h⟩

end Ondc
